import Mathlib

/-!
Shallow embedding of the forecast backend (src/backend/main.py) and proofs
of the behavioural claims about it.

Modelling conventions, used consistently below:
* Python floats are modelled as rationals (ℚ); the algebraic structure of
  every claim is preserved exactly.  `np.std` / `pandas.std` return a square
  root, which is irrational in general, so a statistics entry keyed "std"
  stores the *square* of the emitted value (the variance); theorems that
  talk about the emitted standard deviation phrase it as `Real.sqrt` of that
  stored value.
* Timestamps are rationals counting minutes; `datetime.now()` is an explicit
  `now` parameter; `timestamp.hour + timestamp.minute / 60` becomes
  `hourOfDay`.
* `np.sin(2*π*x)` and `np.exp (-x)` are transcendental; the embedding is
  parametric in a `RealFns` record providing `sin2pi` and `expNeg`, so every
  theorem holds for the actual sine/exponential (none of the claims depends
  on their values).
* Modelled from the spec: the numpy global random generator (library code,
  not part of the repository) is "pseudo-random per call, bit-reproducible
  once seeded".  It is modelled as a deterministic stream over an explicit
  state `s : ℕ` (a linear congruential generator); `np.random.seed n`
  replaces the state by `n`, every sampling helper consumes the stream.
  The distribution shapes (normal, uniform) are irrelevant to the claims and
  are modelled as simple deterministic transforms of the uniform stream.
-/

namespace Backend

instance {ε α : Type} [DecidableEq ε] [DecidableEq α] : DecidableEq (Except ε α) :=
  fun a b =>
    match a, b with
    | .error x, .error y =>
      if h : x = y then .isTrue (congrArg Except.error h)
      else .isFalse (fun hc => h (Except.error.inj hc))
    | .error _, .ok _ => .isFalse (fun hc => Except.noConfusion hc)
    | .ok _, .error _ => .isFalse (fun hc => Except.noConfusion hc)
    | .ok x, .ok y =>
      if h : x = y then .isTrue (congrArg Except.ok h)
      else .isFalse (fun hc => h (Except.ok.inj hc))

/-- Mean of a list of rationals, `np.mean` (the code only applies it to
nonempty lists; ℚ division by zero makes the empty case `0`). -/
def listMean (l : List ℚ) : ℚ := l.sum / (l.length : ℚ)

/-- Population variance, the square of `np.std` (numpy default `ddof=0`). -/
def popVar (l : List ℚ) : ℚ := listMean (l.map (fun x => (x - listMean l) ^ 2))

/-- Sample variance, the square of `pandas.Series.std` (pandas default
`ddof=1`).  The code only takes it on provider frames with at least two
rows in the theorems below; pandas yields NaN for shorter input, which has
no ℚ counterpart, so the embedding returns `0` there (unused). -/
def sampleVar (l : List ℚ) : ℚ :=
  if l.length ≤ 1 then 0
  else (l.map (fun x => (x - listMean l) ^ 2)).sum / ((l.length : ℚ) - 1)

/-- Minimum of a list, `np.min` / `pandas.min`, with an explicit default for
the empty list (the code never reaches that case on the proved paths). -/
def listMinD (l : List ℚ) (d : ℚ) : ℚ :=
  match l with
  | [] => d
  | x :: xs => xs.foldl min x

/-- Maximum of a list, `np.max` / `pandas.max` / `df[col].max()`. -/
def listMaxD (l : List ℚ) (d : ℚ) : ℚ :=
  match l with
  | [] => d
  | x :: xs => xs.foldl max x

/-- Hour-of-day of a timestamp given in minutes:
`timestamp.hour + timestamp.minute / 60` (seconds are truncated away,
exactly as the attribute access does). -/
def hourOfDay (ts : ℚ) : ℚ := (((⌊ts⌋ % 1440 : ℤ)) : ℚ) / 60

/-- Modelled from the spec: one step of the numpy global pseudo-random
stream (a linear congruential generator on a 31-bit state). -/
def lcg (s : ℕ) : ℕ := (s * 1103515245 + 12345) % 2147483648

/-- Modelled from the spec: `np.random.random()` — a uniform draw in `[0,1)`
from the global stream, together with the advanced state. -/
def rngRandom (s : ℕ) : ℚ × ℕ :=
  let s2 := lcg s
  (((s2 : ℚ)) / 2147483648, s2)

/-- Modelled from the spec: `np.random.normal(0, sd)` — a centred draw,
modelled as a deterministic transform of the uniform stream (the
distribution shape is irrelevant to every claim). -/
def rngNormal (sd : ℚ) (s : ℕ) : ℚ × ℕ :=
  let u := rngRandom s
  (sd * (2 * u.1 - 1), u.2)

/-- Modelled from the spec: `np.random.randn()` — standard-normal draw,
modelled as a transform of the uniform stream. -/
def rngRandn (s : ℕ) : ℚ × ℕ :=
  let u := rngRandom s
  (2 * u.1 - 1, u.2)

/-- Modelled from the spec: `np.random.uniform(a, b)` draw. -/
def rngUniform (a b : ℚ) (s : ℕ) : ℚ × ℕ :=
  let u := rngRandom s
  (a + u.1 * (b - a), u.2)

/-- A vector of `n` draws (numpy's `size=n` sampling), threading the state. -/
def rngVec (f : ℕ → ℚ × ℕ) : ℕ → ℕ → List ℚ × ℕ
  | 0, s => ([], s)
  | n + 1, s =>
    let x := f s
    let xs := rngVec f n x.2
    (x.1 :: xs.1, xs.2)

/-- The two transcendental functions the generator uses: `sin2pi x` stands
for `sin (2*π*x)` and `expNeg x` for `exp (-x)`.  The embedding is
parametric in them; no claim depends on their values. -/
structure RealFns where
  sin2pi : ℚ → ℚ
  expNeg : ℚ → ℚ

/-- One row of the historical market-data series
`{timestamp, energy_price, hash_price, token_price}`. -/
structure DataPt where
  ts : ℚ
  e : ℚ
  h : ℚ
  t : ℚ
deriving DecidableEq

/-- Insert a point into a ts-sorted list (ascending), keeping stability. -/
def insertByTs (p : DataPt) : List DataPt → List DataPt
  | [] => [p]
  | q :: qs => if p.ts ≤ q.ts then p :: q :: qs else q :: insertByTs p qs

/-- Sort by timestamp ascending: `df.sort_values('timestamp')`. -/
def sortByTs : List DataPt → List DataPt
  | [] => []
  | p :: ps => insertByTs p (sortByTs ps)

/-- The synthetic historical generator `generate_synthetic_data_fallback`
(main.py lines 117–208).  Its first action is `np.random.seed(42)`, which
discards the incoming global RNG state `_s`; everything afterwards is drawn
from the reseeded stream, in the order the Python lines execute.  The
returned state is the global state after the call. -/
def generate_synthetic_data_fallback (T : RealFns) (now : ℚ) (days interval : ℕ)
    (_s : ℕ) : List DataPt × ℕ :=
  let ipd := (24 * 60) / interval
  let n := days * ipd
  let date : ℕ → ℚ := fun k => now - (days : ℚ) * 1440 + (k : ℚ) * (interval : ℚ)
  let hrs : ℕ → ℚ := fun k => hourOfDay (date k)
  let del : ℕ → ℚ := fun k => (k : ℚ) / (ipd : ℚ)
  -- np.random.seed(42)
  let s0 : ℕ := 42
  let eVol := rngVec (rngNormal (3/20)) n s0
  let spikeU := rngVec rngRandom n eVol.2
  let spikeAmp := rngVec (rngUniform (1/2) 2) n spikeU.2
  let hVol := rngVec (rngNormal (1/5)) n spikeAmp.2
  let hAmp := rngVec (rngUniform (-1) 3) n hVol.2
  let tVol := rngVec (rngNormal (1/4)) n hAmp.2
  let jumpU := rngVec rngRandom n tVol.2
  let jumpAmp := rngVec (rngUniform (-2) 4) n jumpU.2
  let mask : ℕ → Bool := fun k => decide (spikeU.1.getD k 0 < 1/50)
  let e0 : List ℚ := (List.range n).map (fun k =>
    (5/2 + 1/2 * T.sin2pi (del k / 3))
    + 4/5 * T.sin2pi ((hrs k - 6) / 24)
    + 3/10 * T.sin2pi (hrs k / 6)
    + 1/5 * T.sin2pi ((k : ℚ) / ((ipd : ℚ) * (1/4)))
    + 1/10 * del k
    + eVol.1.getD k 0
    + (if mask k then spikeAmp.1.getD k 0 else 0))
  let h0 : List ℚ := (List.range n).map (fun k =>
    (3 + 7/10 * T.sin2pi (del k / (5/2) + 1/6))
    + 1 * T.sin2pi ((k : ℚ) / ((ipd : ℚ) * (2/5)))
    + 3/5 * T.sin2pi ((hrs k - 10) / 24)
    + 2/5 * T.sin2pi ((k : ℚ) / ((ipd : ℚ) * (3/20)) + 1/8)
    + hVol.1.getD k 0
    + (if mask k then hAmp.1.getD k 0 else 0))
  let t0 : List ℚ := (List.range n).map (fun k =>
    (2 + 6/5 * T.sin2pi (del k / (3/2) + 1/4))
    + 1/2 * T.sin2pi ((k : ℚ) / ((ipd : ℚ) * (3/10))) * T.sin2pi ((k : ℚ) / ((ipd : ℚ) * (7/10)))
    + (-(7/10)) * T.sin2pi ((hrs k - 6) / 24)
    + (-(1/20) * del k + 3/10 * T.sin2pi (del k))
    + tVol.1.getD k 0
    + (if decide (jumpU.1.getD k 0 < 3/100) then jumpAmp.1.getD k 0 else 0))
  let ev := applyEvents T n ((e0, h0, t0), jumpAmp.2)
  let eP := ev.1.1.map (fun x => max x (1/10))
  let hP := ev.1.2.1.map (fun x => max x (1/10))
  let tP := ev.1.2.2.map (fun x => max x (1/10))
  ((List.range n).map (fun k => ⟨date k, eP.getD k 0, hP.getD k 0, tP.getD k 0⟩), ev.2)
where
  /-- The five market shock events (lines 179–190): at each event time,
  draw a shock magnitude and apply a decaying perturbation to the next 20
  samples of all three arrays (three `randn` draws per sample). -/
  applyEvents (T : RealFns) (n : ℕ) (st : (List ℚ × List ℚ × List ℚ) × ℕ) :
      (List ℚ × List ℚ × List ℚ) × ℕ :=
    [(3/20 : ℚ), 7/20, 11/20, 3/4, 9/10].foldl (fun st et =>
      let idx := (⌊et * (n : ℚ)⌋).toNat
      if (idx : ℤ) < (n : ℤ) - 20 then
        let sh := rngUniform (-(3/2)) (3/2) st.2
        (List.range 20).foldl (fun acc i =>
          if idx + i < n then
            let decay := T.expNeg ((i : ℚ) / 5)
            let z1 := rngRandn acc.2
            let e2 := acc.1.1.set (idx + i)
              (acc.1.1.getD (idx + i) 0 + sh.1 * decay * (1 + 3/10 * z1.1))
            let z2 := rngRandn z1.2
            let h2 := acc.1.2.1.set (idx + i)
              (acc.1.2.1.getD (idx + i) 0 + sh.1 * decay * (3/2) * (1 + 3/10 * z2.1))
            let z3 := rngRandn z2.2
            let t2 := acc.1.2.2.set (idx + i)
              (acc.1.2.2.getD (idx + i) 0 + (-(sh.1)) * decay * (4/5) * (1 + 3/10 * z3.1))
            ((e2, h2, t2), z3.2)
          else acc) (st.1, sh.2)
      else st) st

/-- `generate_energy_market_data` (lines 69–115): read the CSV store, sort
by timestamp, keep the trailing `days`-day window; on any read error fall
back to the synthetic generator.  The CSV store is external input: `csv =
none` models a failing read (missing file or malformed contents), `csv =
some rows` its parsed contents. -/
def generate_energy_market_data (csv : Option (List DataPt)) (T : RealFns)
    (now : ℚ) (days interval : ℕ) (s : ℕ) : List DataPt × ℕ :=
  match csv with
  | some rows =>
    ((sortByTs rows).filter
      (fun r => decide (now - (days : ℚ) * 1440 ≤ r.ts) && decide (r.ts ≤ now)), s)
  | none => generate_synthetic_data_fallback T now days interval s

/-- `df.drop_duplicates(subset=['ds'], keep='last')` on a `(ds, y)` list:
keep, in order, the last occurrence of every timestamp. -/
def dedupKeepLast : List (ℚ × ℚ) → List (ℚ × ℚ)
  | [] => []
  | x :: xs =>
    if xs.any (fun y => decide (y.1 = x.1)) then dedupKeepLast xs
    else x :: dedupKeepLast xs

/-- The data-preparation stage of `generate_forecast` (lines 216–262):
build the per-quantity `(ds, y)` frames from seven days of historical data,
de-duplicate timestamps, and when fewer than 100 points remain backfill by
prepending additional days (the `insert(0, …)` loop reverses the batch) and
de-duplicating again.  `now1`/`now2` are the two `datetime.now()` readings.
Python raises `ZeroDivisionError` when `interval > 1440` makes
`intervals_per_day` zero while backfilling; the embedding returns an error
there.  The result is the triple of frames handed to the provider calls,
plus the RNG state. -/
def prepareSeries (csv : Option (List DataPt)) (T : RealFns) (now1 now2 : ℚ)
    (interval : ℕ) (s : ℕ) :
    Except Unit (List (ℚ × ℚ) × List (ℚ × ℚ) × List (ℚ × ℚ) × ℕ) :=
  let hist := generate_energy_market_data csv T now1 7 interval s
  let eD := hist.1.map (fun p => (p.ts, p.e))
  let hD := hist.1.map (fun p => (p.ts, p.h))
  let tD := hist.1.map (fun p => (p.ts, p.t))
  let edf := dedupKeepLast eD
  if edf.length < 100 then
    let ipd := (24 * 60) / interval
    if ipd = 0 then .error ()
    else
      let addDays := max 1 ((100 - edf.length) / ipd)
      let add := generate_energy_market_data csv T now2 addDays interval hist.2
      let eD2 := (add.1.map (fun p => (p.ts, p.e))).reverse ++ eD
      let hD2 := (add.1.map (fun p => (p.ts, p.h))).reverse ++ hD
      let tD2 := (add.1.map (fun p => (p.ts, p.t))).reverse ++ tD
      .ok (dedupKeepLast eD2, dedupKeepLast hD2, dedupKeepLast tD2, add.2)
  else .ok (edf, dedupKeepLast hD, dedupKeepLast tD, hist.2)

/-- A row of the data frame entering the synthetic forecast path: a cell
per named column (`row[c]`).  Missing keys default to `0`; the code never
reads a column that is absent from `df.columns`. -/
abbrev Row : Type := List (String × ℚ)

/-- Cell access `row[c]`. -/
def rget (r : Row) (c : String) : ℚ :=
  match r.find? (fun e => decide (e.1 = c)) with
  | some e => e.2
  | none => 0

/-- A pandas data frame: column names plus rows. -/
structure DF where
  cols : List String
  rows : List Row
deriving DecidableEq

/-- Column-naming dispatch of `generate_synthetic_forecast_all_types`
(lines 601–618): the chosen time column. Note the `energyPrice` branch
still selects `timestamp`, exactly as the code does. -/
def timeColOf (cols : List String) : String :=
  if ("timestamp" : String) ∈ cols then "timestamp"
  else if ("energyPrice" : String) ∈ cols then "timestamp"
  else "ds"

/-- Column dispatch: the energy column. -/
def energyColOf (cols : List String) : String :=
  if ("timestamp" : String) ∈ cols then "energy_price"
  else if ("energyPrice" : String) ∈ cols then "energyPrice"
  else "y"

/-- Column dispatch: the hash column. -/
def hashColOf (cols : List String) : String :=
  if ("timestamp" : String) ∈ cols then "hash_price"
  else if ("energyPrice" : String) ∈ cols then "hashPrice"
  else "y"

/-- Column dispatch: the token column. -/
def tokenColOf (cols : List String) : String :=
  if ("timestamp" : String) ∈ cols then "token_price"
  else if ("energyPrice" : String) ∈ cols then "tokenPrice"
  else "y"

/-- Lines 620–624: `last_date` is the maximum of the time column when that
column exists, else `datetime.now()`. -/
def lastDateOf (df : DF) (now : ℚ) : ℚ :=
  if timeColOf df.cols ∈ df.cols then
    listMaxD (df.rows.map (fun r => rget r (timeColOf df.cols))) 0
  else now

/-- Lines 627–640: `df[c].iloc[-1]` when column `c` exists, else the
per-quantity default. -/
def lastValOf (df : DF) (c : String) (d : ℚ) : ℚ :=
  if c ∈ df.cols then rget (df.rows.getD (df.rows.length - 1) []) c else d

/-- The per-series trend formula shared by lines 572–576 and 642–648:
`(series.iloc[-1] - series.iloc[-12]) / 12` when more than 12 points exist,
else 0.  (`iloc[-12]` is the element at index `len - 12`, i.e. eleven steps
before the last one.) -/
def recentTrend (ys : List ℚ) : ℚ :=
  if 12 < ys.length then
    (ys.getD (ys.length - 1) 0 - ys.getD (ys.length - 12) 0) / 12
  else 0

/-- Lines 642–648: the trend of column `c`: the `recentTrend` formula when
the data frame has more than 12 rows and the column exists, else 0. -/
def trendOf (df : DF) (c : String) : ℚ :=
  if 12 < df.rows.length then
    if c ∈ df.cols then
      (rget (df.rows.getD (df.rows.length - 1) []) c -
        rget (df.rows.getD (df.rows.length - 12) []) c) / 12
    else 0
  else 0

/-- Per-quantity confidence bound `(lo, hi)`. -/
structure Bound where
  lo : ℚ
  hi : ℚ
deriving DecidableEq

instance : Inhabited Bound := ⟨⟨0, 0⟩⟩

/-- One flattened forecast point of the response.  `bounds` carries, per
requested level, either `none` (historical points: the `…_lo_…`/`…_hi_…`
fields are set to `None`) or the energy/hash/token bound triple. -/
structure FPoint where
  ts : ℚ
  energy_price : ℚ
  hash_price : ℚ
  token_price : ℚ
  is_historical : Bool
  bounds : List (ℤ × Option (Bound × Bound × Bound))
deriving DecidableEq

instance : Inhabited FPoint := ⟨⟨0, 0, 0, 0, false, []⟩⟩

/-- Line 704: `uncertainty = (100 - level) / 100 * 0.5`. -/
def uncertainty (l : ℤ) : ℚ := ((100 - l : ℤ) : ℚ) / 100 * (1/2)

/-- Lines 705–710: the synthetic bound pair
`lo = value * (1 - uncertainty)`, `hi = value * (1 + uncertainty)`. -/
def mkB (v : ℚ) (l : ℤ) : Bound :=
  ⟨v * (1 - uncertainty l), v * (1 + uncertainty l)⟩

/-- The forecast response as far as the claims are concerned (the
`analysis` and `generated_at` presentation strings are omitted).  The
statistics map keeps the code's keys; by the convention at the top of the
file the value stored under "std" is the square of the emitted float. -/
structure Resp where
  forecasts : List FPoint
  arbitrage_opportunities : ℕ
  model : String
  statistics : List (String × ℚ)
  interval_minutes : ℕ
deriving DecidableEq

instance : Inhabited Resp := ⟨⟨[], 0, "", [], 0⟩⟩

/-- `detect_arbitrage_opportunities` (lines 743–756): with fewer than two
values return 0, else count values strictly above `mean + 1.5*std` plus
values strictly below `mean - 1.5*std`, `std` being the population standard
deviation.  Over ℚ the comparison `p > m + 1.5*sqrt v` is embedded by its
exact square characterisation `p - m > 0 ∧ (p - m)^2 > (3/2)^2 * v`
(equivalent because `sqrt v ≥ 0`; the equivalence with the `Real.sqrt`
formulation is proved below). -/
def arbHigh (vs : List ℚ) (p : ℚ) : Bool :=
  decide (listMean vs < p) && decide ((3/2 : ℚ) ^ 2 * popVar vs < (p - listMean vs) ^ 2)

/-- Square characterisation of `p < mean - 1.5*std`, see `arbHigh`. -/
def arbLow (vs : List ℚ) (p : ℚ) : Bool :=
  decide (p < listMean vs) && decide ((3/2 : ℚ) ^ 2 * popVar vs < (listMean vs - p) ^ 2)

/-- `detect_arbitrage_opportunities` itself. -/
def detect_arbitrage_opportunities (vs : List ℚ) : ℕ :=
  if vs.length < 2 then 0
  else (vs.filter (arbHigh vs)).length + (vs.filter (arbLow vs)).length

/-- Lines 653–669: the historical tail of the synthetic path — present only
when the time column and all three price columns exist; then the last
`min(50, len(df))` rows, flagged `is_historical=True`, with `None` bounds
for every requested level. -/
def histPartOf (df : DF) (levels : List ℤ) : List FPoint :=
  if timeColOf df.cols ∈ df.cols ∧ energyColOf df.cols ∈ df.cols ∧
      hashColOf df.cols ∈ df.cols ∧ tokenColOf df.cols ∈ df.cols then
    (df.rows.drop (df.rows.length - min 50 df.rows.length)).map (fun r =>
      ⟨rget r (timeColOf df.cols), rget r (energyColOf df.cols),
        rget r (hashColOf df.cols), rget r (tokenColOf df.cols), true,
        levels.map (fun l => (l, none))⟩)
  else []

/-- Lines 679–712: one forecast step: the daily sinusoidal multiplier, the
three noise draws (in source order), the trend term, the positive floors,
and the per-level bounds. -/
def synthStep (T : RealFns) (lastDate : ℚ) (interval : ℕ)
    (lE lH lT eTr hTr tTr : ℚ) (levels : List ℤ) (i : ℕ) (s : ℕ) :
    FPoint × ℕ :=
  let ts := lastDate + (interval : ℚ) * ((i : ℚ) + 1)
  let mult := 1 + (15/100) * T.sin2pi ((hourOfDay ts - 6) / 24)
  let r1 := rngRandom s
  let r2 := rngRandom r1.2
  let r3 := rngRandom r2.2
  let eF := max (1/100) (lE * mult + eTr * (i : ℚ) * (1/10) + (r1.1 - 1/2) * (1/100))
  let hF := max (1/10) (lH * mult + hTr * (i : ℚ) * (1/10) + (r2.1 - 1/2) * (1/10))
  let tF := max (1/100) (lT * mult + tTr * (i : ℚ) * (1/10) + (r3.1 - 1/2) * (5/100))
  (⟨ts, eF, hF, tF, false,
    levels.map (fun l => (l, some (mkB eF l, mkB hF l, mkB tF l)))⟩, r3.2)

/-- The forecast loop: points for steps `i, i+1, …` (`n` of them). -/
def synthPoints (T : RealFns) (lastDate : ℚ) (interval : ℕ)
    (lE lH lT eTr hTr tTr : ℚ) (levels : List ℤ) :
    ℕ → ℕ → ℕ → List FPoint × ℕ
  | _, 0, s => ([], s)
  | i, n + 1, s =>
    let p := synthStep T lastDate interval lE lH lT eTr hTr tTr levels i s
    let rest := synthPoints T lastDate interval lE lH lT eTr hTr tTr levels (i + 1) n p.2
    (p.1 :: rest.1, rest.2)

/-- Lines 714–731: the statistics bundle of the synthetic path, over the
forecast-only energy values (`std` stores the square of the emitted
`np.std`, per the file's convention). -/
def buildStats (ev hv tv : List ℚ) (eTr : ℚ) : List (String × ℚ) :=
  [("mean", listMean ev), ("std", popVar ev), ("min", listMinD ev 0),
   ("max", listMaxD ev 0), ("trend", eTr), ("hash_mean", listMean hv),
   ("token_mean", listMean tv)]

/-- The body of `generate_synthetic_forecast_all_types` (lines 599–741) on
the non-raising path: column dispatch, last values and trends, historical
tail, forecast loop, statistics and arbitrage count. -/
def allTypesCore (df : DF) (horizon interval : ℕ) (levels : List ℤ)
    (T : RealFns) (now : ℚ) (s : ℕ) : Resp × ℕ :=
  let eTr := trendOf df (energyColOf df.cols)
  let fp := synthPoints T (lastDateOf df now) interval
    (lastValOf df (energyColOf df.cols) (1/10))
    (lastValOf df (hashColOf df.cols) 4)
    (lastValOf df (tokenColOf df.cols) (1/2))
    eTr (trendOf df (hashColOf df.cols)) (trendOf df (tokenColOf df.cols))
    levels 0 horizon s
  let forecasts := histPartOf df levels ++ fp.1
  let fOnly := forecasts.filter (fun f => !f.is_historical)
  let ev := fOnly.map (fun f => f.energy_price)
  let hv := fOnly.map (fun f => f.hash_price)
  let tv := fOnly.map (fun f => f.token_price)
  (⟨forecasts, detect_arbitrage_opportunities ev, "synthetic",
    buildStats ev hv tv eTr, interval⟩, fp.2)

/-- The conditions under which the Python body raises instead of returning:
an empty frame whose recognised columns are nevertheless read
(`iloc[-1]` / `date_range` of `NaT`), or `horizon = 0`, which makes
`np.min` of the empty forecast segment raise. -/
def allTypesRaises (df : DF) (horizon : ℕ) : Bool :=
  (decide (df.rows = []) &&
    (decide (timeColOf df.cols ∈ df.cols) || decide (energyColOf df.cols ∈ df.cols) ||
     decide (hashColOf df.cols ∈ df.cols) || decide (tokenColOf df.cols ∈ df.cols)))
  || decide (horizon = 0)

/-- `generate_synthetic_forecast_all_types`: the raising cases become an
error (the exception propagates to the caller), otherwise the assembled
response plus the advanced RNG state. -/
def generate_synthetic_forecast_all_types (df : DF) (horizon interval : ℕ)
    (levels : List ℤ) (T : RealFns) (now : ℚ) (s : ℕ) :
    Except Unit (Resp × ℕ) :=
  if allTypesRaises df horizon then .error ()
  else .ok (allTypesCore df horizon interval levels T now s)

/-- One row of a provider (TimeGPT) forecast frame: timestamp, the
`TimeGPT` point-estimate column, and the values of the per-level lo/hi
columns (meaningful only for levels listed in the frame's column sets). -/
structure ProvRow where
  ds : ℚ
  tgpt : ℚ
  loVal : ℤ → ℚ
  hiVal : ℤ → ℚ

instance : Inhabited ProvRow := ⟨⟨0, 0, fun _ => 0, fun _ => 0⟩⟩

/-- A provider forecast frame.  `loCols`/`hiCols` are the levels for which
a lower/upper bound column exists under any of the three recognised naming
formats (lines 349–350 collapse the three formats into mere presence). -/
structure ProvDF where
  loCols : List ℤ
  hiCols : List ℤ
  rows : List ProvRow

/-- Lines 352–358 (and the analogous hash/token blocks): the emitted lower
bound for a level — the provider's column when present, else the fixed
`point * 0.9` proxy. -/
def provLo (f : ProvDF) (r : ProvRow) (l : ℤ) : ℚ :=
  if l ∈ f.loCols then r.loVal l else r.tgpt * (9/10)

/-- The emitted upper bound: provider column when present, else
`point * 1.1`. -/
def provHi (f : ProvDF) (r : ProvRow) (l : ℤ) : ℚ :=
  if l ∈ f.hiCols then r.hiVal l else r.tgpt * (11/10)

/-- Lines 337–397: the `i`-th forecast point of the provider path. -/
def provPoint (epf hpf tpf : ProvDF) (levels : List ℤ) (i : ℕ) : FPoint :=
  let er := epf.rows.getD i default
  let hr := hpf.rows.getD i default
  let tr := tpf.rows.getD i default
  ⟨er.ds, er.tgpt, hr.tgpt, tr.tgpt, false,
    levels.map (fun l => (l, some
      (⟨provLo epf er l, provHi epf er l⟩,
       ⟨provLo hpf hr l, provHi hpf hr l⟩,
       ⟨provLo tpf tr l, provHi tpf tr l⟩)))⟩

/-- Lines 314–334: the last `min(50, len(energy_df))` historical rows of
the three `(ds, y)` frames, flagged historical, with `None` bounds. -/
def provHist (edf hdf tdf : List (ℚ × ℚ)) (levels : List ℤ) : List FPoint :=
  let hp := min 50 edf.length
  (List.range hp).map (fun k =>
    let i := edf.length - hp + k
    ⟨(edf.getD i (0, 0)).1, (edf.getD i (0, 0)).2, (hdf.getD i (0, 0)).2,
      (tdf.getD i (0, 0)).2, true, levels.map (fun l => (l, none))⟩)

/-- The provider-success assembly of `generate_forecast` (lines 309–423):
historical tail, forecast points, statistics (pandas sample std, see
`sampleVar`) and arbitrage count over the provider's energy estimates.
Index errors from frames of mismatching lengths, and the NaN statistics of
an empty provider frame, are the raising cases (caught by the caller, which
then falls back to the synthetic path); they become `.error`. -/
def providerAssemble (edf hdf tdf : List (ℚ × ℚ)) (epf hpf tpf : ProvDF)
    (levels : List ℤ) (interval : ℕ) : Except Unit Resp :=
  if hdf.length < edf.length ∨ tdf.length < edf.length ∨
      hpf.rows.length < epf.rows.length ∨ tpf.rows.length < epf.rows.length ∨
      epf.rows.length = 0 then .error ()
  else
    let ev := epf.rows.map (fun r => r.tgpt)
    .ok ⟨provHist edf hdf tdf levels ++
          (List.range epf.rows.length).map (provPoint epf hpf tpf levels),
      detect_arbitrage_opportunities ev, "timegpt-1",
      [("mean", listMean ev), ("std", sampleVar ev), ("min", listMinD ev 0),
       ("max", listMaxD ev 0)], interval⟩

/-- The anomaly endpoint's result `{anomalies, total_anomalies,
anomaly_rate}`; an anomaly entry is `(timestamp, value, anomaly_score)`. -/
structure AnomResp where
  anomalies : List (ℚ × ℚ × ℚ)
  total_anomalies : ℕ
  anomaly_rate : ℚ
deriving DecidableEq

/-- A row of the provider's anomaly frame: timestamp, value, and the
`anomaly` flag column (`row.get('anomaly', 0)`). -/
structure AnomRow where
  ds : ℚ
  y : ℚ
  anomaly : ℤ
deriving DecidableEq

/-- `detect_anomalies` (lines 472–521) after the request's market data has
been assembled into the `(ds, y)` series `mdata`.  The provider capability
is `client`: `none` models an unconfigured `nixtla_client`; a configured
client maps the series to `none` when its anomaly call raises, or to the
returned frame.  On the unconfigured and failing paths the code returns the
empty result rather than an error; on success it keeps the rows whose
`anomaly` flag equals 1, with score 1.0 and rate `count / len(df)`. -/
def detect_anomalies
    (client : Option (List (ℚ × ℚ) → Option (List AnomRow)))
    (mdata : List (ℚ × ℚ)) : AnomResp :=
  match client with
  | none => ⟨[], 0, 0⟩
  | some f =>
    match f mdata with
    | none => ⟨[], 0, 0⟩
    | some rows =>
      let anoms := (rows.filter (fun r => decide (r.anomaly = 1))).map
        (fun r => (r.ds, r.y, (1 : ℚ)))
      ⟨anoms, anoms.length,
        if 0 < mdata.length then (anoms.length : ℚ) / (mdata.length : ℚ) else 0⟩

/-- The initial de-duplicated energy frame of the preparation stage (the
`energy_df` whose length is tested against 100). -/
def initialEnergy (csv : Option (List DataPt)) (T : RealFns) (now1 : ℚ)
    (interval : ℕ) (s : ℕ) : List (ℚ × ℚ) :=
  dedupKeepLast
    ((generate_energy_market_data csv T now1 7 interval s).1.map (fun p => (p.ts, p.e)))

/-- The de-duplicated energy view of the backfill batch that the
preparation stage prepends when the initial frame is short. -/
def backfillBatch (csv : Option (List DataPt)) (T : RealFns) (now1 now2 : ℚ)
    (interval : ℕ) (s : ℕ) : List (ℚ × ℚ) :=
  dedupKeepLast
    (((generate_energy_market_data csv T now2
        (max 1 ((100 - (initialEnergy csv T now1 interval s).length) / ((24 * 60) / interval)))
        interval (generate_energy_market_data csv T now1 7 interval s).2).1).map
      (fun p => (p.ts, p.e)))

/-! ### Concrete instances used by witnesses and counterexamples -/

/-- The transcendental parameter instantiated by zero functions (legitimate:
no claim below constrains `sin`/`exp` values). -/
def fnsZero : RealFns := ⟨fun _ => 0, fun _ => 0⟩

/-- A three-row `ds`/`y` frame, the shape every outer-fallback tier builds. -/
def exDsY : DF :=
  ⟨["ds", "y"], [[("ds", 0), ("y", 1)], [("ds", 5), ("y", 2)], [("ds", 10), ("y", 3)]]⟩

/-- A one-row `ds`/`y` frame. -/
def exDsY1 : DF := ⟨["ds", "y"], [[("ds", 0), ("y", 1)]]⟩

/-- A concrete synthetic-path call on `exDsY`: horizon 1, interval 5,
levels 80 and 95, RNG state 0. -/
def exCallA : Except Unit (Resp × ℕ) :=
  generate_synthetic_forecast_all_types exDsY 1 5 [80, 95] fnsZero 0 0

/-- Its response. -/
def exRespA : Resp := (exCallA.toOption.getD default).1

/-- Its final RNG state. -/
def exStA : ℕ := (exCallA.toOption.getD default).2

/-- The single future point of `exRespA` (after the 3-row historical tail). -/
def exPt3 : FPoint := exRespA.forecasts.getD 3 default

/-- Its level-80 bound triple. -/
def exB80 : Bound × Bound × Bound := ((exPt3.bounds.getD 0 (0, none)).2).getD default

/-- Its level-95 bound triple. -/
def exB95 : Bound × Bound × Bound := ((exPt3.bounds.getD 1 (0, none)).2).getD default

/-- Provider rows with negative point estimates and no bound columns. -/
def exRowNeg0 : ProvRow := ⟨5, -1, fun _ => 0, fun _ => 0⟩

/-- Second negative provider row. -/
def exRowNeg1 : ProvRow := ⟨10, -2, fun _ => 0, fun _ => 0⟩

/-- A provider frame with negative estimates (bound columns absent, so the
`0.9`/`1.1` proxies are used). -/
def exPfNeg : ProvDF := ⟨[], [], [exRowNeg0, exRowNeg1]⟩

/-- Provider-path assembly over the negative frame. -/
def exCallPNeg : Except Unit Resp :=
  providerAssemble [(0, 1)] [(0, 2)] [(0, 3)] exPfNeg exPfNeg exPfNeg [95] 5

/-- Provider rows with nonnegative estimates. -/
def exRowPos0 : ProvRow := ⟨5, 1, fun _ => 0, fun _ => 0⟩

/-- Second nonnegative provider row. -/
def exRowPos1 : ProvRow := ⟨10, 3, fun _ => 0, fun _ => 0⟩

/-- A provider frame with nonnegative estimates. -/
def exPfPos : ProvDF := ⟨[], [], [exRowPos0, exRowPos1]⟩

/-- Provider-path assembly over the nonnegative frame. -/
def exCallP2 : Except Unit Resp :=
  providerAssemble [(0, 1)] [(0, 2)] [(0, 3)] exPfPos exPfPos exPfPos [80, 95] 5

/-- Its response. -/
def exRespP2 : Resp := exCallP2.toOption.getD default

/-- Its first future point (index 1, after the one historical row). -/
def exPtP : FPoint := exRespP2.forecasts.getD 1 default

/-- Its level-80 bound triple. -/
def exBP80 : Bound × Bound × Bound := ((exPtP.bounds.getD 0 (0, none)).2).getD default

/-- RNG state left behind by the first synthetic call on `exDsY1`. -/
def exSt8 : ℕ :=
  ((generate_synthetic_forecast_all_types exDsY1 1 5 [] fnsZero 0 0).toOption.getD default).2

/-- Energy value of the future point of the first synthetic call on
`exDsY1` (initial RNG state 0). -/
def exE1 : ℚ :=
  (((generate_synthetic_forecast_all_types exDsY1 1 5 [] fnsZero 0 0).toOption.getD
    default).1.forecasts.getD 1 default).energy_price

/-- Energy value of the future point of the second, immediately following
synthetic call (initial RNG state `exSt8`). -/
def exE2 : ℚ :=
  (((generate_synthetic_forecast_all_types exDsY1 1 5 [] fnsZero 0 exSt8).toOption.getD
    default).1.forecasts.getD 1 default).energy_price

/-- A 13-element series separating `iloc[-12]` from "12 steps before the
last". -/
def exTrendList : List ℚ := [100, 0, 0, 0, 0, 0, 0, 0, 0, 0, 0, 0, 12]

/-- A CSV store holding a single recent row: both the 7-day read and the
1-day backfill read return this same timestamp, so de-duplication leaves
one point. -/
def exCsv : Option (List DataPt) := some [⟨10080, 1, 1, 1⟩]

/-- The point extracted from the negative-estimate provider response at
index 1 (its first future point). -/
def exPtNeg : FPoint := (exCallPNeg.toOption.getD default).forecasts.getD 1 default

/-- Its level-95 bound triple. -/
def exBNeg : Bound × Bound × Bound := ((exPtNeg.bounds.getD 0 (0, none)).2).getD default

/-! ### Structural lemmas about the synthetic forecast loop -/

theorem synthPoints_length (T : RealFns) (ld : ℚ) (itv : ℕ)
    (lE lH lT eTr hTr tTr : ℚ) (levels : List ℤ) :
    ∀ n i s, (synthPoints T ld itv lE lH lT eTr hTr tTr levels i n s).1.length = n := by
  intro n
  induction n with
  | zero => intro i s; rfl
  | succ n ih => intro i s; simp [synthPoints, ih]

theorem synthPoints_mem (T : RealFns) (ld : ℚ) (itv : ℕ)
    (lE lH lT eTr hTr tTr : ℚ) (levels : List ℤ) :
    ∀ n i s p, p ∈ (synthPoints T ld itv lE lH lT eTr hTr tTr levels i n s).1 →
      p.is_historical = false ∧ 1/100 ≤ p.energy_price ∧ 1/10 ≤ p.hash_price ∧
      1/100 ≤ p.token_price ∧
      p.bounds = levels.map (fun l =>
        (l, some (mkB p.energy_price l, mkB p.hash_price l, mkB p.token_price l))) := by
  intro n
  induction n with
  | zero => intro i s p hp; simp [synthPoints] at hp
  | succ n ih =>
    intro i s p hp
    simp only [synthPoints, List.mem_cons] at hp
    rcases hp with hp | hp
    · subst hp
      refine ⟨rfl, le_max_left _ _, le_max_left _ _, le_max_left _ _, rfl⟩
    · exact ih _ _ _ hp

theorem histPartOf_mem (df : DF) (levels : List ℤ) (p : FPoint)
    (hp : p ∈ histPartOf df levels) : p.is_historical = true := by
  unfold histPartOf at hp
  split at hp
  · rcases List.mem_map.1 hp with ⟨r, _, rfl⟩
    rfl
  · simp at hp

theorem allTypes_ok {df : DF} {horizon interval : ℕ} {levels : List ℤ}
    {T : RealFns} {now : ℚ} {s : ℕ} {x : Resp × ℕ}
    (h : generate_synthetic_forecast_all_types df horizon interval levels T now s = .ok x) :
    x = allTypesCore df horizon interval levels T now s := by
  unfold generate_synthetic_forecast_all_types at h
  split at h
  · exact absurd h (by simp)
  · exact (Except.ok.inj h).symm

theorem filter_hist_append (hist fut : List FPoint)
    (hh : ∀ p ∈ hist, p.is_historical = true)
    (hf : ∀ p ∈ fut, p.is_historical = false) :
    (hist ++ fut).filter (fun f => !f.is_historical) = fut := by
  rw [List.filter_append]
  have h1 : hist.filter (fun f => !f.is_historical) = [] := by
    apply List.filter_eq_nil_iff.2
    intro p hp
    simp [hh p hp]
  have h2 : fut.filter (fun f => !f.is_historical) = fut := by
    apply List.filter_eq_self.2
    intro p hp
    simp [hf p hp]
  rw [h1, h2, List.nil_append]

theorem allTypesCore_forecasts (df : DF) (horizon interval : ℕ)
    (levels : List ℤ) (T : RealFns) (now : ℚ) (s : ℕ) :
    (allTypesCore df horizon interval levels T now s).1.forecasts =
      histPartOf df levels ++
        (synthPoints T (lastDateOf df now) interval
          (lastValOf df (energyColOf df.cols) (1/10))
          (lastValOf df (hashColOf df.cols) 4)
          (lastValOf df (tokenColOf df.cols) (1/2))
          (trendOf df (energyColOf df.cols)) (trendOf df (hashColOf df.cols))
          (trendOf df (tokenColOf df.cols)) levels 0 horizon s).1 := rfl

theorem allTypesCore_future_mem (df : DF) (horizon interval : ℕ)
    (levels : List ℤ) (T : RealFns) (now : ℚ) (s : ℕ) (p : FPoint)
    (hp : p ∈ (allTypesCore df horizon interval levels T now s).1.forecasts)
    (hnh : p.is_historical = false) :
    p.bounds = levels.map (fun l =>
      (l, some (mkB p.energy_price l, mkB p.hash_price l, mkB p.token_price l))) ∧
    1/100 ≤ p.energy_price ∧ 1/10 ≤ p.hash_price ∧ 1/100 ≤ p.token_price := by
  rw [allTypesCore_forecasts] at hp
  rcases List.mem_append.1 hp with hp | hp
  · exact absurd (histPartOf_mem df levels p hp) (by simp [hnh])
  · obtain ⟨_, h1, h2, h3, h4⟩ := synthPoints_mem T _ interval _ _ _ _ _ _ levels _ _ _ p hp
    exact ⟨h4, h1, h2, h3⟩

/-! ### Lemmas about the bound formulas -/

theorem mkB_lo (v : ℚ) (l : ℤ) : (mkB v l).lo = v * (1 - ((100 - l : ℤ) : ℚ) / 100 * (1/2)) := rfl

theorem mkB_hi (v : ℚ) (l : ℤ) : (mkB v l).hi = v * (1 + ((100 - l : ℤ) : ℚ) / 100 * (1/2)) := rfl

theorem mkB_bracket (v : ℚ) (l : ℤ) (hv : 0 ≤ v) (hl : l < 100) :
    (mkB v l).lo ≤ v ∧ v ≤ (mkB v l).hi := by
  have hu : 0 ≤ uncertainty l := by
    unfold uncertainty
    have : (0 : ℚ) ≤ ((100 - l : ℤ) : ℚ) := by
      have : (0 : ℤ) ≤ 100 - l := by omega
      exact_mod_cast this
    positivity
  constructor
  · show v * (1 - uncertainty l) ≤ v
    nlinarith [mul_nonneg hv hu]
  · show v ≤ v * (1 + uncertainty l)
    nlinarith [mul_nonneg hv hu]

theorem mkB_width (v : ℚ) (l : ℤ) :
    (mkB v l).hi - (mkB v l).lo = 2 * v * uncertainty l := by
  simp only [mkB]
  ring

theorem mkB_width_antitone (v : ℚ) (l1 l2 : ℤ) (hv : 0 ≤ v) (h12 : l1 < l2) :
    (mkB v l2).hi - (mkB v l2).lo ≤ (mkB v l1).hi - (mkB v l1).lo := by
  rw [mkB_width, mkB_width]
  have hu : uncertainty l2 ≤ uncertainty l1 := by
    unfold uncertainty
    have : ((100 - l2 : ℤ) : ℚ) ≤ ((100 - l1 : ℤ) : ℚ) := by
      have : (100 - l2 : ℤ) ≤ 100 - l1 := by omega
      exact_mod_cast this
    nlinarith
  nlinarith

/-! ### Structural lemmas about the provider path -/

theorem range_map_getD {α β : Type} (g : α → β) (d : α) :
    ∀ rows : List α,
      (List.range rows.length).map (fun i => g (rows.getD i d)) = rows.map g := by
  intro rows
  induction rows with
  | nil => rfl
  | cons x xs ih =>
    show (List.range (xs.length + 1)).map _ = _
    rw [List.range_succ_eq_map, List.map_cons, List.map_map]
    simp only [List.getD_cons_zero, Function.comp_def, List.getD_cons_succ, List.map_cons]
    rw [ih]

theorem provHist_mem (edf hdf tdf : List (ℚ × ℚ)) (levels : List ℤ)
    (p : FPoint) (hp : p ∈ provHist edf hdf tdf levels) :
    p.is_historical = true := by
  unfold provHist at hp
  rcases List.mem_map.1 hp with ⟨k, _, rfl⟩
  rfl

theorem providerAssemble_ok {edf hdf tdf : List (ℚ × ℚ)} {epf hpf tpf : ProvDF}
    {levels : List ℤ} {interval : ℕ} {r : Resp}
    (h : providerAssemble edf hdf tdf epf hpf tpf levels interval = .ok r) :
    r = ⟨provHist edf hdf tdf levels ++
          (List.range epf.rows.length).map (provPoint epf hpf tpf levels),
        detect_arbitrage_opportunities (epf.rows.map (fun x => x.tgpt)), "timegpt-1",
        [("mean", listMean (epf.rows.map (fun x => x.tgpt))),
         ("std", sampleVar (epf.rows.map (fun x => x.tgpt))),
         ("min", listMinD (epf.rows.map (fun x => x.tgpt)) 0),
         ("max", listMaxD (epf.rows.map (fun x => x.tgpt)) 0)], interval⟩ ∧
      ¬(hdf.length < edf.length ∨ tdf.length < edf.length ∨
        hpf.rows.length < epf.rows.length ∨ tpf.rows.length < epf.rows.length ∨
        epf.rows.length = 0) := by
  unfold providerAssemble at h
  split at h
  · exact absurd h (by simp)
  · rename_i hg
    exact ⟨(Except.ok.inj h).symm, hg⟩

/-! ### De-duplication counts distinct timestamps -/

theorem dedupKeepLast_length_eq (l : List (ℚ × ℚ)) :
    (dedupKeepLast l).length = (l.map Prod.fst).toFinset.card := by
  induction l with
  | nil => rfl
  | cons x xs ih =>
    show (if xs.any (fun y => decide (y.1 = x.1)) then dedupKeepLast xs
          else x :: dedupKeepLast xs).length = _
    rw [List.map_cons, List.toFinset_cons]
    by_cases hmem : x.1 ∈ (xs.map Prod.fst).toFinset
    · have hany : xs.any (fun y => decide (y.1 = x.1)) = true := by
        rw [List.any_eq_true]
        rcases List.mem_map.1 (List.mem_toFinset.1 hmem) with ⟨y, hy, hyx⟩
        exact ⟨y, hy, by simp [hyx]⟩
      rw [hany, Finset.insert_eq_self.2 hmem]
      simpa using ih
    · have hany : xs.any (fun y => decide (y.1 = x.1)) = false := by
        rw [Bool.eq_false_iff]
        intro hc
        rcases List.any_eq_true.1 hc with ⟨y, hy, hyx⟩
        exact hmem (List.mem_toFinset.2 (List.mem_map.2 ⟨y, hy, by simpa using hyx⟩))
      rw [hany, Finset.card_insert_of_not_mem hmem]
      simpa using ih

theorem dedupKeepLast_append_right (xs ys : List (ℚ × ℚ)) :
    (dedupKeepLast ys).length ≤ (dedupKeepLast (xs ++ ys)).length := by
  rw [dedupKeepLast_length_eq, dedupKeepLast_length_eq, List.map_append,
    List.toFinset_append]
  exact Finset.card_le_card (Finset.subset_union_right)

theorem dedupKeepLast_append_left (xs ys : List (ℚ × ℚ)) :
    (dedupKeepLast xs).length ≤ (dedupKeepLast (xs ++ ys)).length := by
  rw [dedupKeepLast_length_eq, dedupKeepLast_length_eq, List.map_append,
    List.toFinset_append]
  exact Finset.card_le_card (Finset.subset_union_left)

/-! ### The square characterisation of the 1.5-sigma comparison -/

theorem listMean_nonneg (l : List ℚ) (h : ∀ x ∈ l, 0 ≤ x) : 0 ≤ listMean l := by
  unfold listMean
  have := List.sum_nonneg h
  positivity

theorem popVar_nonneg (l : List ℚ) : 0 ≤ popVar l := by
  unfold popVar
  apply listMean_nonneg
  intro x hx
  rcases List.mem_map.1 hx with ⟨y, _, rfl⟩
  positivity

theorem mul_sqrt_lt_iff (v d : ℝ) (hv : 0 ≤ v) :
    3/2 * Real.sqrt v < d ↔ 0 < d ∧ (3/2 : ℝ) ^ 2 * v < d ^ 2 := by
  have hs : 0 ≤ Real.sqrt v := Real.sqrt_nonneg v
  have h2 : Real.sqrt v ^ 2 = v := Real.sq_sqrt hv
  constructor
  · intro h
    have hd : 0 < d := lt_of_le_of_lt (by positivity) h
    refine ⟨hd, ?_⟩
    nlinarith
  · rintro ⟨hd, h⟩
    by_contra hc
    push_neg at hc
    nlinarith

theorem arbHigh_iff (vs : List ℚ) (p : ℚ) :
    arbHigh vs p = true ↔
      ((listMean vs : ℚ) : ℝ) + 3/2 * Real.sqrt ((popVar vs : ℚ)) < ((p : ℚ) : ℝ) := by
  unfold arbHigh
  rw [Bool.and_eq_true, decide_eq_true_eq, decide_eq_true_eq]
  have hv : (0 : ℝ) ≤ ((popVar vs : ℚ) : ℝ) := by exact_mod_cast popVar_nonneg vs
  have key := mul_sqrt_lt_iff ((popVar vs : ℚ) : ℝ) (((p : ℚ) : ℝ) - ((listMean vs : ℚ) : ℝ)) hv
  constructor
  · rintro ⟨h1, h2⟩
    have h1' : (0 : ℝ) < ((p : ℚ) : ℝ) - ((listMean vs : ℚ) : ℝ) := by
      rw [sub_pos]; exact_mod_cast h1
    have h2' : ((3/2 : ℝ)) ^ 2 * ((popVar vs : ℚ) : ℝ) <
        (((p : ℚ) : ℝ) - ((listMean vs : ℚ) : ℝ)) ^ 2 := by
      have h2r : ((((3:ℚ)/2) ^ 2 * popVar vs : ℚ) : ℝ) <
          (((p - listMean vs) ^ 2 : ℚ) : ℝ) := by exact_mod_cast h2
      push_cast at h2r
      linarith
    have := key.2 ⟨h1', h2'⟩
    linarith
  · intro h
    have hd : 3/2 * Real.sqrt ((popVar vs : ℚ)) <
        ((p : ℚ) : ℝ) - ((listMean vs : ℚ) : ℝ) := by linarith
    obtain ⟨h1, h2⟩ := key.1 hd
    constructor
    · have : ((listMean vs : ℚ) : ℝ) < ((p : ℚ) : ℝ) := by linarith
      exact_mod_cast this
    · have h2r : ((((3:ℚ)/2) ^ 2 * popVar vs : ℚ) : ℝ) <
          (((p - listMean vs) ^ 2 : ℚ) : ℝ) := by push_cast; linarith
      exact_mod_cast h2r

theorem arbLow_iff (vs : List ℚ) (p : ℚ) :
    arbLow vs p = true ↔
      ((p : ℚ) : ℝ) < ((listMean vs : ℚ) : ℝ) - 3/2 * Real.sqrt ((popVar vs : ℚ)) := by
  unfold arbLow
  rw [Bool.and_eq_true, decide_eq_true_eq, decide_eq_true_eq]
  have hv : (0 : ℝ) ≤ ((popVar vs : ℚ) : ℝ) := by exact_mod_cast popVar_nonneg vs
  have key := mul_sqrt_lt_iff ((popVar vs : ℚ) : ℝ) (((listMean vs : ℚ) : ℝ) - ((p : ℚ) : ℝ)) hv
  constructor
  · rintro ⟨h1, h2⟩
    have h1' : (0 : ℝ) < ((listMean vs : ℚ) : ℝ) - ((p : ℚ) : ℝ) := by
      rw [sub_pos]; exact_mod_cast h1
    have h2' : ((3/2 : ℝ)) ^ 2 * ((popVar vs : ℚ) : ℝ) <
        (((listMean vs : ℚ) : ℝ) - ((p : ℚ) : ℝ)) ^ 2 := by
      have h2r : ((((3:ℚ)/2) ^ 2 * popVar vs : ℚ) : ℝ) <
          (((listMean vs - p) ^ 2 : ℚ) : ℝ) := by exact_mod_cast h2
      push_cast at h2r
      linarith
    have := key.2 ⟨h1', h2'⟩
    linarith
  · intro h
    have hd : 3/2 * Real.sqrt ((popVar vs : ℚ)) <
        ((listMean vs : ℚ) : ℝ) - ((p : ℚ) : ℝ) := by linarith
    obtain ⟨h1, h2⟩ := key.1 hd
    constructor
    · have : ((p : ℚ) : ℝ) < ((listMean vs : ℚ) : ℝ) := by linarith
      exact_mod_cast this
    · have h2r : ((((3:ℚ)/2) ^ 2 * popVar vs : ℚ) : ℝ) <
          (((listMean vs - p) ^ 2 : ℚ) : ℝ) := by push_cast; linarith
      exact_mod_cast h2r

/-! ### Evaluation of the concrete instances -/

theorem filter_hist_append_keep (hist fut : List FPoint)
    (hh : ∀ p ∈ hist, p.is_historical = true)
    (hf : ∀ p ∈ fut, p.is_historical = false) :
    (hist ++ fut).filter (fun f => f.is_historical) = hist := by
  rw [List.filter_append]
  have h1 : hist.filter (fun f => f.is_historical) = hist := by
    apply List.filter_eq_self.2
    intro p hp
    simp [hh p hp]
  have h2 : fut.filter (fun f => f.is_historical) = [] := by
    apply List.filter_eq_nil_iff.2
    intro p hp
    simp [hf p hp]
  rw [h1, h2, List.append_nil]

theorem except_eq_ok {α : Type} [Inhabited α] (e : Except Unit α)
    (h : e.toOption.isSome = true) : e = .ok (e.toOption.getD default) := by
  cases e with
  | error u => simp [Except.toOption] at h
  | ok x => simp [Except.toOption]

theorem getD_mem {α : Type} (l : List α) (n : ℕ) (d : α) (h : n < l.length) :
    l.getD n d ∈ l := by
  rw [List.getD_eq_getElem l d h]
  exact List.getElem_mem h

theorem exCallA_eq : exCallA = .ok (exRespA, exStA) :=
  except_eq_ok exCallA (by decide)

theorem exCallP2_eq : exCallP2 = .ok exRespP2 :=
  except_eq_ok exCallP2 (by decide)

theorem exCallPNeg_eq : exCallPNeg = .ok (exCallPNeg.toOption.getD default) :=
  except_eq_ok exCallPNeg (by decide)

/-! ### The claims -/

/-- C1: on both the provider path and the synthetic fallback path, the
response contains exactly `horizon` points with `is_historical = false`
(for the provider path, under the provider contract — modelled from the
spec — that the forecast frame has one row per horizon step). -/
theorem c1_forecast_count_eq_horizon :
    (∀ (df : DF) (horizon interval : ℕ) (levels : List ℤ) (T : RealFns)
        (now : ℚ) (s : ℕ) (r : Resp) (s2 : ℕ),
      generate_synthetic_forecast_all_types df horizon interval levels T now s =
        .ok (r, s2) →
      (r.forecasts.filter (fun p => !p.is_historical)).length = horizon) ∧
    (∀ (edf hdf tdf : List (ℚ × ℚ)) (epf hpf tpf : ProvDF) (levels : List ℤ)
        (interval horizon : ℕ) (r : Resp),
      epf.rows.length = horizon →
      providerAssemble edf hdf tdf epf hpf tpf levels interval = .ok r →
      (r.forecasts.filter (fun p => !p.is_historical)).length = horizon) := by
  constructor
  · intro df horizon interval levels T now s r s2 h
    have hr : r = (allTypesCore df horizon interval levels T now s).1 :=
      congrArg Prod.fst (allTypes_ok h)
    subst hr
    rw [allTypesCore_forecasts]
    rw [filter_hist_append _ _ (fun p hp => histPartOf_mem df levels p hp)
      (fun p hp => (synthPoints_mem _ _ _ _ _ _ _ _ _ _ _ _ _ p hp).1)]
    exact synthPoints_length _ _ _ _ _ _ _ _ _ _ horizon 0 s
  · intro edf hdf tdf epf hpf tpf levels interval horizon r hlen h
    obtain ⟨hr, _⟩ := providerAssemble_ok h
    subst hr
    show (((provHist edf hdf tdf levels ++
        (List.range epf.rows.length).map (provPoint epf hpf tpf levels)).filter
        (fun p => !p.is_historical)).length) = horizon
    have hfut : ∀ p ∈ (List.range epf.rows.length).map (provPoint epf hpf tpf levels),
        p.is_historical = false := by
      intro p hp
      rcases List.mem_map.1 hp with ⟨i, _, rfl⟩
      rfl
    rw [filter_hist_append _ _ (fun p hp => provHist_mem edf hdf tdf levels p hp) hfut,
      List.length_map, List.length_range]
    exact hlen

/-- Witness for C1: a synthetic call with horizon 1 yields one future
point, and a provider assembly with a two-row forecast frame yields two. -/
theorem c1_witness :
    (exRespA.forecasts.filter (fun p => !p.is_historical)).length = 1 ∧
    (exRespP2.forecasts.filter (fun p => !p.is_historical)).length = 2 :=
  ⟨c1_forecast_count_eq_horizon.1 exDsY 1 5 [80, 95] fnsZero 0 0 exRespA exStA exCallA_eq,
   c1_forecast_count_eq_horizon.2 [(0, 1)] [(0, 2)] [(0, 3)] exPfPos exPfPos exPfPos
     [80, 95] 5 2 exRespP2 (by decide) exCallP2_eq⟩

theorem getD_map_of_lt {α β : Type} (f : α → β) (l : List α) (n : ℕ)
    (d1 : β) (d2 : α) (h : n < l.length) :
    (l.map f).getD n d1 = f (l.getD n d2) := by
  rw [List.getD_eq_getElem _ _ (by simpa using h), List.getD_eq_getElem _ _ h,
    List.getElem_map]

/-- C3: on the synthetic path, every non-historical point carries, for each
requested level `l`, exactly the bounds `lo = v*(1-u)`, `hi = v*(1+u)` with
`u = (100-l)/100*0.5` for each of the three quantities, and for two levels
`l1 < l2` the interval width at `l1` is at least the width at `l2`. -/
theorem c3_synthetic_bound_formula :
    ∀ (df : DF) (horizon interval : ℕ) (levels : List ℤ) (T : RealFns)
      (now : ℚ) (s : ℕ) (r : Resp) (s2 : ℕ),
      generate_synthetic_forecast_all_types df horizon interval levels T now s =
        .ok (r, s2) →
      ∀ p ∈ r.forecasts, p.is_historical = false →
        (∀ (l : ℤ) (ob : Option (Bound × Bound × Bound)), (l, ob) ∈ p.bounds →
          ob = some
            (⟨p.energy_price * (1 - ((100 - l : ℤ) : ℚ) / 100 * (1/2)),
              p.energy_price * (1 + ((100 - l : ℤ) : ℚ) / 100 * (1/2))⟩,
             ⟨p.hash_price * (1 - ((100 - l : ℤ) : ℚ) / 100 * (1/2)),
              p.hash_price * (1 + ((100 - l : ℤ) : ℚ) / 100 * (1/2))⟩,
             ⟨p.token_price * (1 - ((100 - l : ℤ) : ℚ) / 100 * (1/2)),
              p.token_price * (1 + ((100 - l : ℤ) : ℚ) / 100 * (1/2))⟩)) ∧
        (∀ (l1 l2 : ℤ) (b1 b2 : Bound × Bound × Bound),
          (l1, some b1) ∈ p.bounds → (l2, some b2) ∈ p.bounds → l1 < l2 →
          b2.1.hi - b2.1.lo ≤ b1.1.hi - b1.1.lo ∧
          b2.2.1.hi - b2.2.1.lo ≤ b1.2.1.hi - b1.2.1.lo ∧
          b2.2.2.hi - b2.2.2.lo ≤ b1.2.2.hi - b1.2.2.lo) := by
  intro df horizon interval levels T now s r s2 h p hp hnh
  have hr : r = (allTypesCore df horizon interval levels T now s).1 :=
    congrArg Prod.fst (allTypes_ok h)
  subst hr
  obtain ⟨hb, he, hh, ht⟩ :=
    allTypesCore_future_mem df horizon interval levels T now s p hp hnh
  constructor
  · intro l ob hob
    rw [hb] at hob
    rcases List.mem_map.1 hob with ⟨l', _, heq⟩
    have hl : l' = l := congrArg Prod.fst heq
    subst hl
    have hsnd : some (mkB p.energy_price l', mkB p.hash_price l', mkB p.token_price l') =
        ob := congrArg Prod.snd heq
    rw [← hsnd]
    rfl
  · intro l1 l2 b1 b2 hm1 hm2 h12
    rw [hb] at hm1 hm2
    rcases List.mem_map.1 hm1 with ⟨l1', _, heq1⟩
    rcases List.mem_map.1 hm2 with ⟨l2', _, heq2⟩
    have e1 : l1' = l1 := congrArg Prod.fst heq1
    have e2 : l2' = l2 := congrArg Prod.fst heq2
    subst e1
    subst e2
    have hb1 : b1 = (mkB p.energy_price l1', mkB p.hash_price l1', mkB p.token_price l1') :=
      (Option.some.inj (congrArg Prod.snd heq1)).symm
    have hb2 : b2 = (mkB p.energy_price l2', mkB p.hash_price l2', mkB p.token_price l2') :=
      (Option.some.inj (congrArg Prod.snd heq2)).symm
    subst hb1
    subst hb2
    have he0 : (0 : ℚ) ≤ p.energy_price := le_trans (by norm_num) he
    have hh0 : (0 : ℚ) ≤ p.hash_price := le_trans (by norm_num) hh
    have ht0 : (0 : ℚ) ≤ p.token_price := le_trans (by norm_num) ht
    exact ⟨mkB_width_antitone _ l1' l2' he0 h12,
           mkB_width_antitone _ l1' l2' hh0 h12,
           mkB_width_antitone _ l1' l2' ht0 h12⟩

/-- Witness for C3: level-95 width is at most the level-80 width at the
concrete future point of `exRespA`. -/
theorem c3_witness :
    exB95.1.hi - exB95.1.lo ≤ exB80.1.hi - exB80.1.lo := by
  have hflen : exRespA.forecasts.length = 4 := by decide
  have hp : exPt3 ∈ exRespA.forecasts := getD_mem exRespA.forecasts 3 default (by omega)
  have h80 : exPt3.bounds.getD 0 (0, none) = ((80 : ℤ), some exB80) := rfl
  have h95 : exPt3.bounds.getD 1 (0, none) = ((95 : ℤ), some exB95) := rfl
  have hblen : exPt3.bounds.length = 2 := by decide
  have hm80 : ((80 : ℤ), some exB80) ∈ exPt3.bounds := by
    rw [← h80]; exact getD_mem _ 0 _ (by omega)
  have hm95 : ((95 : ℤ), some exB95) ∈ exPt3.bounds := by
    rw [← h95]; exact getD_mem _ 1 _ (by omega)
  exact ((c3_synthetic_bound_formula exDsY 1 5 [80, 95] fnsZero 0 0 exRespA exStA
    exCallA_eq exPt3 hp (by decide)).2 80 95 exB80 exB95 hm80 hm95 (by decide)).1

/-- Counterexample for C5: at a 13-point series the code's trend, which
reads `iloc[-12]` (index 1, eleven steps before the last), differs from the
claimed "(last minus the value 12 steps before the last) / 12" (index 0). -/
theorem c5_counterexample :
    recentTrend exTrendList = 1 ∧
    (exTrendList.getD (exTrendList.length - 1) 0 -
        exTrendList.getD (exTrendList.length - 1 - 12) 0) / 12 = -22/3 ∧
    ¬((1 : ℚ) = -22/3) := by
  refine ⟨?_, ?_, by norm_num⟩
  · have h : recentTrend exTrendList = ((12 : ℚ) - 0) / 12 := rfl
    rw [h]; norm_num
  · have h : (exTrendList.getD (exTrendList.length - 1) 0 -
        exTrendList.getD (exTrendList.length - 1 - 12) 0) / 12 =
        ((12 : ℚ) - 100) / 12 := rfl
    rw [h]; norm_num

/-- C5 amended: with at least 13 points the trend is `(last value minus the
value eleven steps before the last, i.e. the element at index len-12)
divided by 12`, else 0; and the per-column trend of the synthetic path is
exactly this formula applied to the column when it exists (0 otherwise). -/
theorem c5_trend_amended :
    (∀ ys : List ℚ,
      (12 < ys.length →
        recentTrend ys = (ys.getD (ys.length - 1) 0 - ys.getD (ys.length - 12) 0) / 12) ∧
      (ys.length ≤ 12 → recentTrend ys = 0)) ∧
    (∀ (df : DF) (c : String),
      trendOf df c =
        if 12 < df.rows.length ∧ c ∈ df.cols then
          recentTrend (df.rows.map (fun r => rget r c))
        else 0) := by
  constructor
  · intro ys
    constructor
    · intro h; rw [recentTrend, if_pos h]
    · intro h; rw [recentTrend, if_neg (by omega)]
  · intro df c
    unfold trendOf
    by_cases h1 : 12 < df.rows.length
    · by_cases h2 : c ∈ df.cols
      · rw [if_pos h1, if_pos h2, if_pos (⟨h1, h2⟩ : _ ∧ _), recentTrend,
          if_pos (by rw [List.length_map]; exact h1)]
        rw [List.length_map]
        rw [getD_map_of_lt (fun r => rget r c) df.rows (df.rows.length - 1) 0 [] (by omega),
          getD_map_of_lt (fun r => rget r c) df.rows (df.rows.length - 12) 0 [] (by omega)]
      · rw [if_pos h1, if_neg h2, if_neg (by tauto)]
    · rw [if_neg h1, if_neg (by tauto)]

/-- Witness for C5: the amended formula evaluated at the 13-point example
and the empty list. -/
theorem c5_witness :
    recentTrend exTrendList =
      (exTrendList.getD (exTrendList.length - 1) 0 -
        exTrendList.getD (exTrendList.length - 12) 0) / 12 ∧
    recentTrend ([] : List ℚ) = 0 :=
  ⟨(c5_trend_amended.1 exTrendList).1 (by decide),
   (c5_trend_amended.1 []).2 (by decide)⟩

/-- C6: the arbitrage detector returns 0 for fewer than two values, and
otherwise the count of values strictly above `mean + 1.5*std` plus the
count strictly below `mean - 1.5*std`, with mean and population standard
deviation (`Real.sqrt` of the population variance) over the same values. -/
theorem c6_arbitrage_correct :
    ∀ vs : List ℚ,
      (vs.length < 2 → detect_arbitrage_opportunities vs = 0) ∧
      (2 ≤ vs.length → detect_arbitrage_opportunities vs =
        (vs.filter (arbHigh vs)).length + (vs.filter (arbLow vs)).length) ∧
      (∀ p : ℚ,
        (arbHigh vs p = true ↔
          ((listMean vs : ℚ) : ℝ) + 3/2 * Real.sqrt ((popVar vs : ℚ)) < ((p : ℚ) : ℝ)) ∧
        (arbLow vs p = true ↔
          ((p : ℚ) : ℝ) < ((listMean vs : ℚ) : ℝ) - 3/2 * Real.sqrt ((popVar vs : ℚ)))) := by
  intro vs
  refine ⟨?_, ?_, fun p => ⟨arbHigh_iff vs p, arbLow_iff vs p⟩⟩
  · intro h; rw [detect_arbitrage_opportunities, if_pos h]
  · intro h; rw [detect_arbitrage_opportunities, if_neg (by omega)]

/-- Witness for C6 at the empty list and a two-element list. -/
theorem c6_witness :
    detect_arbitrage_opportunities [] = 0 ∧
    detect_arbitrage_opportunities [(0 : ℚ), 10] =
      (([(0 : ℚ), 10]).filter (arbHigh [(0 : ℚ), 10])).length +
        (([(0 : ℚ), 10]).filter (arbLow [(0 : ℚ), 10])).length :=
  ⟨(c6_arbitrage_correct []).1 (by decide),
   (c6_arbitrage_correct [0, 10]).2.1 (by decide)⟩

/-- C8 amended: the historical generator reseeds (`np.random.seed(42)`) on
entry, so its output — and even its final RNG state — is independent of the
incoming global RNG state; two runs with identical parameters are
bit-identical.  (The forecast continuation draws from the ambient stream
without seeding, see the counterexample.) -/
theorem c8_fallback_deterministic :
    ∀ (T : RealFns) (now : ℚ) (days interval : ℕ) (s1 s2 : ℕ),
      generate_synthetic_data_fallback T now days interval s1 =
        generate_synthetic_data_fallback T now days interval s2 :=
  fun _ _ _ _ _ _ => rfl

/-- C9: when the provider capability is unconfigured, or its anomaly call
fails, the anomaly operation returns the empty result (never an error). -/
theorem c9_anomaly_empty_on_failure :
    ∀ (client : Option (List (ℚ × ℚ) → Option (List AnomRow))) (mdata : List (ℚ × ℚ)),
      client = none ∨ (∃ f, client = some f ∧ f mdata = none) →
      detect_anomalies client mdata = ⟨[], 0, 0⟩ := by
  intro client mdata h
  rcases h with rfl | ⟨f, rfl, hf⟩
  · rfl
  · simp [detect_anomalies, hf]

/-- Witness for C9: the unconfigured client on an empty series. -/
theorem c9_witness : detect_anomalies none [] = ⟨[], 0, 0⟩ :=
  c9_anomaly_empty_on_failure none [] (Or.inl rfl)

/-- Counterexample for C8: `generate_synthetic_forecast_all_types` never
seeds the generator, so calling it twice in a row (the second call starting
from the RNG state the first one left behind) yields different energy
values for the same future step — not bit-identical output. -/
theorem c8_counterexample :
    ((generate_synthetic_forecast_all_types exDsY1 1 5 [] fnsZero 0 0).toOption.map
      (fun x => (x.1.forecasts.getD 1 default).energy_price)) ≠
    ((generate_synthetic_forecast_all_types exDsY1 1 5 [] fnsZero 0 exSt8).toOption.map
      (fun x => (x.1.forecasts.getD 1 default).energy_price)) := by
  have h1 : ((generate_synthetic_forecast_all_types exDsY1 1 5 [] fnsZero 0 0).toOption.map
      (fun x => (x.1.forecasts.getD 1 default).energy_price)) = some exE1 := rfl
  have h2 : ((generate_synthetic_forecast_all_types exDsY1 1 5 [] fnsZero 0 exSt8).toOption.map
      (fun x => (x.1.forecasts.getD 1 default).energy_price)) = some exE2 := rfl
  rw [h1, h2]
  have e1 : exE1 = 213674635321/214748364800 := by
    norm_num +decide [exE1, generate_synthetic_forecast_all_types, allTypesRaises, allTypesCore,
      synthPoints, synthStep, histPartOf, timeColOf, energyColOf, hashColOf, tokenColOf,
      lastDateOf, lastValOf, trendOf, rget, listMaxD, rngRandom, lcg, fnsZero, exDsY1,
      Except.toOption, max_def]
  have e2 : exE2 = 2151240899/2147483648 := by
    norm_num +decide [exE2, exSt8, generate_synthetic_forecast_all_types, allTypesRaises,
      allTypesCore, synthPoints, synthStep, histPartOf, timeColOf, energyColOf,
      hashColOf, tokenColOf, lastDateOf, lastValOf, trendOf, rget, listMaxD,
      rngRandom, lcg, fnsZero, exDsY1, Except.toOption, max_def]
  rw [e1, e2]
  norm_num

theorem prov_bracket (f : ProvDF) (row : ProvRow) (l : ℤ) (h0 : 0 ≤ row.tgpt)
    (hlo : ∀ l2 ∈ f.loCols, row.loVal l2 ≤ row.tgpt)
    (hhi : ∀ l2 ∈ f.hiCols, row.tgpt ≤ row.hiVal l2) :
    provLo f row l ≤ row.tgpt ∧ row.tgpt ≤ provHi f row l := by
  constructor
  · unfold provLo
    split
    · exact hlo l (by assumption)
    · nlinarith
  · unfold provHi
    split
    · exact hhi l (by assumption)
    · nlinarith

/-- C2 amended: `lo ≤ point ≤ hi` holds for every quantity and requested
level `0 < L < 100` on the synthetic path unconditionally; on the provider
path it holds provided the provider's point estimates are nonnegative and
any provider-supplied bound columns themselves bracket the estimate (the
raw claim fails there: the `0.9x`/`1.1x` proxies invert for negative
estimates and provider columns are passed through unvalidated). -/
theorem c2_bounds_bracket_amended :
    (∀ (df : DF) (horizon interval : ℕ) (levels : List ℤ) (T : RealFns)
        (now : ℚ) (s : ℕ) (r : Resp) (s2 : ℕ),
      generate_synthetic_forecast_all_types df horizon interval levels T now s =
        .ok (r, s2) →
      ∀ p ∈ r.forecasts, p.is_historical = false →
      ∀ (l : ℤ) (ob : Option (Bound × Bound × Bound)), (l, ob) ∈ p.bounds →
        0 < l → l < 100 →
        ∃ be bh bt, ob = some (be, bh, bt) ∧
          be.lo ≤ p.energy_price ∧ p.energy_price ≤ be.hi ∧
          bh.lo ≤ p.hash_price ∧ p.hash_price ≤ bh.hi ∧
          bt.lo ≤ p.token_price ∧ p.token_price ≤ bt.hi) ∧
    (∀ (edf hdf tdf : List (ℚ × ℚ)) (epf hpf tpf : ProvDF) (levels : List ℤ)
        (interval : ℕ) (r : Resp),
      providerAssemble edf hdf tdf epf hpf tpf levels interval = .ok r →
      (∀ fr ∈ [epf, hpf, tpf], ∀ row ∈ fr.rows, 0 ≤ row.tgpt ∧
        (∀ l2 ∈ fr.loCols, row.loVal l2 ≤ row.tgpt) ∧
        (∀ l2 ∈ fr.hiCols, row.tgpt ≤ row.hiVal l2)) →
      ∀ p ∈ r.forecasts, p.is_historical = false →
      ∀ (l : ℤ) (ob : Option (Bound × Bound × Bound)), (l, ob) ∈ p.bounds →
        ∃ be bh bt, ob = some (be, bh, bt) ∧
          be.lo ≤ p.energy_price ∧ p.energy_price ≤ be.hi ∧
          bh.lo ≤ p.hash_price ∧ p.hash_price ≤ bh.hi ∧
          bt.lo ≤ p.token_price ∧ p.token_price ≤ bt.hi) := by
  constructor
  · intro df horizon interval levels T now s r s2 h p hp hnh l ob hob _ hl100
    have hr : r = (allTypesCore df horizon interval levels T now s).1 :=
      congrArg Prod.fst (allTypes_ok h)
    subst hr
    obtain ⟨hb, he, hh, ht⟩ :=
      allTypesCore_future_mem df horizon interval levels T now s p hp hnh
    rw [hb] at hob
    rcases List.mem_map.1 hob with ⟨l', _, heq⟩
    have hl : l' = l := congrArg Prod.fst heq
    subst hl
    have hsnd : some (mkB p.energy_price l', mkB p.hash_price l', mkB p.token_price l') =
        ob := congrArg Prod.snd heq
    obtain ⟨he1, he2⟩ := mkB_bracket p.energy_price l' (le_trans (by norm_num) he) hl100
    obtain ⟨hh1, hh2⟩ := mkB_bracket p.hash_price l' (le_trans (by norm_num) hh) hl100
    obtain ⟨ht1, ht2⟩ := mkB_bracket p.token_price l' (le_trans (by norm_num) ht) hl100
    exact ⟨_, _, _, hsnd.symm, he1, he2, hh1, hh2, ht1, ht2⟩
  · intro edf hdf tdf epf hpf tpf levels interval r h hrows p hp hnh l ob hob
    obtain ⟨hr, hg⟩ := providerAssemble_ok h
    subst hr
    have hp2 : p ∈ provHist edf hdf tdf levels ++
        (List.range epf.rows.length).map (provPoint epf hpf tpf levels) := hp
    rcases List.mem_append.1 hp2 with hph | hpfut
    · exact absurd (provHist_mem _ _ _ _ p hph) (by simp [hnh])
    · rcases List.mem_map.1 hpfut with ⟨i, hi, rfl⟩
      rw [List.mem_range] at hi
      push_neg at hg
      obtain ⟨-, -, hh1, ht1, -⟩ := hg
      simp only [provPoint] at hob
      rcases List.mem_map.1 hob with ⟨l', _, heq⟩
      have hl : l' = l := congrArg Prod.fst heq
      subst hl
      have hsnd := congrArg Prod.snd heq
      obtain ⟨h0e, hloe, hhie⟩ := hrows epf (by simp) (epf.rows.getD i default)
        (getD_mem epf.rows i default hi)
      obtain ⟨h0h, hloh, hhih⟩ := hrows hpf (by simp) (hpf.rows.getD i default)
        (getD_mem hpf.rows i default (lt_of_lt_of_le hi hh1))
      obtain ⟨h0t, hlot, hhit⟩ := hrows tpf (by simp) (tpf.rows.getD i default)
        (getD_mem tpf.rows i default (lt_of_lt_of_le hi ht1))
      obtain ⟨hbe1, hbe2⟩ := prov_bracket epf (epf.rows.getD i default) l' h0e hloe hhie
      obtain ⟨hbh1, hbh2⟩ := prov_bracket hpf (hpf.rows.getD i default) l' h0h hloh hhih
      obtain ⟨hbt1, hbt2⟩ := prov_bracket tpf (tpf.rows.getD i default) l' h0t hlot hhit
      exact ⟨_, _, _, hsnd.symm, hbe1, hbe2, hbh1, hbh2, hbt1, hbt2⟩

/-- Counterexample for C2: on the provider path, a provider forecast frame
with a negative point estimate and no bound columns yields, at level 95,
the proxy lower bound `point * 0.9`, which is strictly greater than the
point estimate: the emitted bounds do not satisfy `lo ≤ point`. -/
theorem c2_counterexample :
    exPtNeg ∈ (exCallPNeg.toOption.getD default).forecasts ∧
    exPtNeg.is_historical = false ∧
    exPtNeg.bounds.getD 0 (0, none) = ((95 : ℤ), some exBNeg) ∧
    ¬(exBNeg.1.lo ≤ exPtNeg.energy_price) := by
  refine ⟨?_, by decide, rfl, ?_⟩
  · have hlen : (exCallPNeg.toOption.getD default).forecasts.length = 3 := by decide
    exact getD_mem _ 1 _ (by omega)
  · have h1 : exBNeg.1.lo = (-1) * (9/10) := rfl
    have h2 : exPtNeg.energy_price = -1 := rfl
    rw [h1, h2]
    norm_num

/-- Witness for C2 amended: both paths at concrete points and level 80. -/
theorem c2_witness :
    (exB80.1.lo ≤ exPt3.energy_price ∧ exPt3.energy_price ≤ exB80.1.hi) ∧
    (exBP80.1.lo ≤ exPtP.energy_price ∧ exPtP.energy_price ≤ exBP80.1.hi) := by
  constructor
  · have hflen : exRespA.forecasts.length = 4 := by decide
    have hp : exPt3 ∈ exRespA.forecasts := getD_mem exRespA.forecasts 3 default (by omega)
    have h80 : exPt3.bounds.getD 0 (0, none) = ((80 : ℤ), some exB80) := rfl
    have hblen : exPt3.bounds.length = 2 := by decide
    have hm80 : ((80 : ℤ), some exB80) ∈ exPt3.bounds := by
      rw [← h80]; exact getD_mem _ 0 _ (by omega)
    obtain ⟨be, bh, bt, heq, h1, h2, -, -, -, -⟩ :=
      c2_bounds_bracket_amended.1 exDsY 1 5 [80, 95] fnsZero 0 0 exRespA exStA exCallA_eq
        exPt3 hp (by decide) 80 (some exB80) hm80 (by decide) (by decide)
    have e := Option.some.inj heq
    rw [e]
    exact ⟨h1, h2⟩
  · have hflen : exRespP2.forecasts.length = 3 := by decide
    have hp : exPtP ∈ exRespP2.forecasts := getD_mem exRespP2.forecasts 1 default (by omega)
    have h80 : exPtP.bounds.getD 0 (0, none) = ((80 : ℤ), some exBP80) := rfl
    have hblen : exPtP.bounds.length = 2 := by decide
    have hm80 : ((80 : ℤ), some exBP80) ∈ exPtP.bounds := by
      rw [← h80]; exact getD_mem _ 0 _ (by omega)
    have hrows : ∀ fr ∈ [exPfPos, exPfPos, exPfPos], ∀ row ∈ fr.rows, 0 ≤ row.tgpt ∧
        (∀ l2 ∈ fr.loCols, row.loVal l2 ≤ row.tgpt) ∧
        (∀ l2 ∈ fr.hiCols, row.tgpt ≤ row.hiVal l2) := by
      intro fr hfr row hrow
      have hfr2 : fr = exPfPos := by
        simp only [List.mem_cons] at hfr
        rcases hfr with h | h | h | h
        exacts [h, h, h, absurd h (by simp)]
      subst hfr2
      have hrow2 : row = exRowPos0 ∨ row = exRowPos1 := by
        simpa [exPfPos] using hrow
      rcases hrow2 with rfl | rfl
      · exact ⟨by norm_num [exRowPos0], by intro l2 hl2; simp [exPfPos] at hl2,
          by intro l2 hl2; simp [exPfPos] at hl2⟩
      · exact ⟨by norm_num [exRowPos1], by intro l2 hl2; simp [exPfPos] at hl2,
          by intro l2 hl2; simp [exPfPos] at hl2⟩
    obtain ⟨be, bh, bt, heq, h1, h2, -, -, -, -⟩ :=
      c2_bounds_bracket_amended.2 [(0, 1)] [(0, 2)] [(0, 3)] exPfPos exPfPos exPfPos
        [80, 95] 5 exRespP2 exCallP2_eq hrows exPtP hp (by decide) 80 (some exBP80) hm80
    have e := Option.some.inj heq
    rw [e]
    exact ⟨h1, h2⟩

theorem dedupKeepLast_reverse_append (xs ys : List (ℚ × ℚ)) :
    (dedupKeepLast xs).length ≤ (dedupKeepLast (xs.reverse ++ ys)).length := by
  rw [dedupKeepLast_length_eq, dedupKeepLast_length_eq, List.map_append,
    List.toFinset_append, List.map_reverse, List.toFinset_reverse]
  exact Finset.card_le_card Finset.subset_union_left

theorem exInit_eq : initialEnergy exCsv fnsZero 10080 5 0 = [((10080 : ℚ), 1)] := by
  norm_num +decide [initialEnergy, generate_energy_market_data, exCsv, sortByTs,
    insertByTs, dedupKeepLast, List.filter]

theorem exPrep_eq : prepareSeries exCsv fnsZero 10080 10080 5 0 =
    .ok ([((10080 : ℚ), 1)], [((10080 : ℚ), 1)], [((10080 : ℚ), 1)], 0) := by
  norm_num +decide [prepareSeries, generate_energy_market_data, exCsv, sortByTs,
    insertByTs, dedupKeepLast, List.filter, max_def]

/-- Counterexample for C4: a CSV store whose rows all sit inside the most
recent day.  The initial frame has 1 < 100 points, so the backfill branch
runs (one extra day is read from the same store), but after de-duplication
the prepared series handed to the provider still has exactly 1 point —
the claimed "at least 100 points" guarantee fails. -/
theorem c4_counterexample :
    (initialEnergy exCsv fnsZero 10080 5 0).length < 100 ∧
    prepareSeries exCsv fnsZero 10080 10080 5 0 =
      .ok ([((10080 : ℚ), 1)], [((10080 : ℚ), 1)], [((10080 : ℚ), 1)], 0) ∧
    ¬(100 ≤ ([((10080 : ℚ), 1)] : List (ℚ × ℚ)).length) := by
  refine ⟨?_, exPrep_eq, by decide⟩
  rw [exInit_eq]
  decide

/-- C4 amended: when the de-duplicated series has fewer than 100 points the
orchestrator does generate and prepend a backfill batch before any provider
call, and the combined de-duplicated series has at least as many points as
the initial series and as the batch; with 100 or more points the series is
passed through unchanged.  No lower bound of 100 on the result holds. -/
theorem c4_backfill_amended :
    ∀ (csv : Option (List DataPt)) (T : RealFns) (now1 now2 : ℚ) (interval : ℕ)
      (s : ℕ) (e hq tq : List (ℚ × ℚ)) (s2 : ℕ),
      prepareSeries csv T now1 now2 interval s = .ok (e, hq, tq, s2) →
      (100 ≤ (initialEnergy csv T now1 interval s).length →
        e = initialEnergy csv T now1 interval s) ∧
      ((initialEnergy csv T now1 interval s).length < 100 →
        (initialEnergy csv T now1 interval s).length ≤ e.length ∧
        (backfillBatch csv T now1 now2 interval s).length ≤ e.length) := by
  intro csv T now1 now2 interval s e hq tq s2 h
  unfold initialEnergy backfillBatch
  simp only [prepareSeries] at h
  split at h
  · rename_i hlt
    split at h
    · exact absurd h (by simp)
    · obtain ⟨he, -, -, -⟩ := Prod.mk.injEq .. ▸ Except.ok.inj h
      constructor
      · intro hge
        exact absurd hge (by omega)
      · intro _
        constructor
        · rw [← he]
          exact dedupKeepLast_append_right _ _
        · rw [← he]
          exact dedupKeepLast_reverse_append _ _
  · rename_i hge
    obtain ⟨he, -, -, -⟩ := Prod.mk.injEq .. ▸ Except.ok.inj h
    constructor
    · intro _
      exact he.symm
    · intro hlt
      exact absurd hlt (by omega)

/-- Witness for C4 amended at the concrete CSV store. -/
theorem c4_witness :
    (initialEnergy exCsv fnsZero 10080 5 0).length ≤
      ([((10080 : ℚ), 1)] : List (ℚ × ℚ)).length :=
  ((c4_backfill_amended exCsv fnsZero 10080 10080 5 0 [((10080 : ℚ), 1)]
      [((10080 : ℚ), 1)] [((10080 : ℚ), 1)] 0 exPrep_eq).2
    (by rw [exInit_eq]; decide)).1

/-- Counterexample for C7: a provider-path response's statistics map has
exactly the keys mean/std/min/max — no trend entry and no secondary-quantity
means, contradicting "on every path". -/
theorem c7_counterexample :
    exRespP2.statistics.map Prod.fst = ["mean", "std", "min", "max"] ∧
    ("trend" : String) ∉ (["mean", "std", "min", "max"] : List String) := by
  exact ⟨by decide, by decide⟩

/-- C7 amended: on the synthetic path the statistics are the mean,
population variance (square of the emitted `np.std`), min and max of the
forecast-only energy values of the response, plus the trend and the
hash/token means; on the provider path only mean, *sample* variance
(square of the emitted pandas `std`, `ddof=1`), min and max of the
forecast-only energy values, with no trend or secondary-mean keys.  Sample
and population variance genuinely differ (`[1,3]`: 2 versus 1). -/
theorem c7_statistics_amended :
    (∀ (df : DF) (horizon interval : ℕ) (levels : List ℤ) (T : RealFns)
        (now : ℚ) (s : ℕ) (r : Resp) (s2 : ℕ),
      generate_synthetic_forecast_all_types df horizon interval levels T now s =
        .ok (r, s2) →
      r.statistics =
        [("mean", listMean ((r.forecasts.filter (fun p => !p.is_historical)).map
            (fun p => p.energy_price))),
         ("std", popVar ((r.forecasts.filter (fun p => !p.is_historical)).map
            (fun p => p.energy_price))),
         ("min", listMinD ((r.forecasts.filter (fun p => !p.is_historical)).map
            (fun p => p.energy_price)) 0),
         ("max", listMaxD ((r.forecasts.filter (fun p => !p.is_historical)).map
            (fun p => p.energy_price)) 0),
         ("trend", trendOf df (energyColOf df.cols)),
         ("hash_mean", listMean ((r.forecasts.filter (fun p => !p.is_historical)).map
            (fun p => p.hash_price))),
         ("token_mean", listMean ((r.forecasts.filter (fun p => !p.is_historical)).map
            (fun p => p.token_price)))]) ∧
    (∀ (edf hdf tdf : List (ℚ × ℚ)) (epf hpf tpf : ProvDF) (levels : List ℤ)
        (interval : ℕ) (r : Resp),
      providerAssemble edf hdf tdf epf hpf tpf levels interval = .ok r →
      r.statistics =
        [("mean", listMean ((r.forecasts.filter (fun p => !p.is_historical)).map
            (fun p => p.energy_price))),
         ("std", sampleVar ((r.forecasts.filter (fun p => !p.is_historical)).map
            (fun p => p.energy_price))),
         ("min", listMinD ((r.forecasts.filter (fun p => !p.is_historical)).map
            (fun p => p.energy_price)) 0),
         ("max", listMaxD ((r.forecasts.filter (fun p => !p.is_historical)).map
            (fun p => p.energy_price)) 0)] ∧
      r.statistics.map Prod.fst = ["mean", "std", "min", "max"]) ∧
    (sampleVar [(1 : ℚ), 3] = 2 ∧ popVar [(1 : ℚ), 3] = 1) := by
  refine ⟨?_, ?_, ?_, ?_⟩
  · intro df horizon interval levels T now s r s2 h
    have hr : r = (allTypesCore df horizon interval levels T now s).1 :=
      congrArg Prod.fst (allTypes_ok h)
    subst hr
    rfl
  · intro edf hdf tdf epf hpf tpf levels interval r h
    obtain ⟨hr, -⟩ := providerAssemble_ok h
    subst hr
    have hev : ((Resp.mk (provHist edf hdf tdf levels ++
        (List.range epf.rows.length).map (provPoint epf hpf tpf levels))
        (detect_arbitrage_opportunities (epf.rows.map (fun x => x.tgpt))) "timegpt-1"
        [("mean", listMean (epf.rows.map (fun x => x.tgpt))),
         ("std", sampleVar (epf.rows.map (fun x => x.tgpt))),
         ("min", listMinD (epf.rows.map (fun x => x.tgpt)) 0),
         ("max", listMaxD (epf.rows.map (fun x => x.tgpt)) 0)] interval).forecasts.filter
          (fun p => !p.is_historical)).map (fun p => p.energy_price) =
        epf.rows.map (fun x => x.tgpt) := by
      have hfut : ∀ p ∈ (List.range epf.rows.length).map (provPoint epf hpf tpf levels),
          p.is_historical = false := by
        intro p hp
        rcases List.mem_map.1 hp with ⟨i, _, rfl⟩
        rfl
      show ((provHist edf hdf tdf levels ++
          (List.range epf.rows.length).map (provPoint epf hpf tpf levels)).filter
          (fun p => !p.is_historical)).map (fun p => p.energy_price) = _
      rw [filter_hist_append _ _ (fun p hp => provHist_mem edf hdf tdf levels p hp) hfut,
        List.map_map]
      simp only [Function.comp_def, provPoint]
      exact range_map_getD (fun row => row.tgpt) default epf.rows
    rw [hev]
    exact ⟨rfl, rfl⟩
  · norm_num [sampleVar, listMean]
  · norm_num [popVar, listMean]

/-- Witness for C7 amended: key sets of the two concrete responses. -/
theorem c7_witness :
    exRespA.statistics.map Prod.fst =
      ["mean", "std", "min", "max", "trend", "hash_mean", "token_mean"] ∧
    exRespP2.statistics.map Prod.fst = ["mean", "std", "min", "max"] := by
  constructor
  · rw [c7_statistics_amended.1 exDsY 1 5 [80, 95] fnsZero 0 0 exRespA exStA exCallA_eq]
    rfl
  · exact (c7_statistics_amended.2.1 [(0, 1)] [(0, 2)] [(0, 3)] exPfPos exPfPos exPfPos
      [80, 95] 5 exRespP2 exCallP2_eq).2

/-- Counterexample for C10: the three-row `ds`/`y` frame (the shape every
outer-fallback tier builds, having neither a `timestamp` nor an
`energyPrice` column) yields a response whose first three points are
historical — the historical tail is not empty. -/
theorem c10_counterexample :
    (("timestamp" : String) ∉ exDsY.cols ∧ ("energyPrice" : String) ∉ exDsY.cols) ∧
    exCallA.toOption.map (fun x => x.1.forecasts.map (fun p => p.is_historical)) =
      some [true, true, true, false] := by
  exact ⟨⟨by decide, by decide⟩, by decide⟩

/-- C10 amended: for a frame without `timestamp` and `energyPrice` columns,
the response's historical part is the last `min(50, len)` rows whenever
both `ds` and `y` are present (each flagged historical with all three
quantities equal to the `y` value), and is empty only when `ds` or `y` is
missing. -/
theorem c10_historical_tail_amended :
    ∀ (df : DF) (horizon interval : ℕ) (levels : List ℤ) (T : RealFns)
      (now : ℚ) (s : ℕ) (r : Resp) (s2 : ℕ),
      ("timestamp" : String) ∉ df.cols → ("energyPrice" : String) ∉ df.cols →
      generate_synthetic_forecast_all_types df horizon interval levels T now s =
        .ok (r, s2) →
      ((("ds" : String) ∈ df.cols ∧ ("y" : String) ∈ df.cols) →
        r.forecasts.filter (fun p => p.is_historical) =
          (df.rows.drop (df.rows.length - min 50 df.rows.length)).map (fun row =>
            ⟨rget row "ds", rget row "y", rget row "y", rget row "y", true,
              levels.map (fun l => (l, none))⟩)) ∧
      (¬(("ds" : String) ∈ df.cols ∧ ("y" : String) ∈ df.cols) →
        ∀ p ∈ r.forecasts, p.is_historical = false) := by
  intro df horizon interval levels T now s r s2 hts hep h
  have hr : r = (allTypesCore df horizon interval levels T now s).1 :=
    congrArg Prod.fst (allTypes_ok h)
  subst hr
  have htc : timeColOf df.cols = "ds" := by rw [timeColOf, if_neg hts, if_neg hep]
  have hec : energyColOf df.cols = "y" := by rw [energyColOf, if_neg hts, if_neg hep]
  have hhc : hashColOf df.cols = "y" := by rw [hashColOf, if_neg hts, if_neg hep]
  have htk : tokenColOf df.cols = "y" := by rw [tokenColOf, if_neg hts, if_neg hep]
  constructor
  · rintro ⟨hds, hy⟩
    rw [allTypesCore_forecasts]
    rw [filter_hist_append_keep _ _ (fun p hp => histPartOf_mem df levels p hp)
      (fun p hp => (synthPoints_mem _ _ _ _ _ _ _ _ _ _ _ _ _ p hp).1)]
    have hcond : timeColOf df.cols ∈ df.cols ∧ energyColOf df.cols ∈ df.cols ∧
        hashColOf df.cols ∈ df.cols ∧ tokenColOf df.cols ∈ df.cols := by
      rw [htc, hec, hhc, htk]
      exact ⟨hds, hy, hy, hy⟩
    rw [histPartOf, if_pos hcond, htc, hec, hhc, htk]
  · intro hnot
    rw [allTypesCore_forecasts]
    have hcond : ¬(timeColOf df.cols ∈ df.cols ∧ energyColOf df.cols ∈ df.cols ∧
        hashColOf df.cols ∈ df.cols ∧ tokenColOf df.cols ∈ df.cols) := by
      rw [htc, hec, hhc, htk]
      rintro ⟨h1, h2, -, -⟩
      exact hnot ⟨h1, h2⟩
    have hhist : histPartOf df levels = [] := by
      rw [histPartOf, if_neg hcond]
    rw [hhist, List.nil_append]
    intro p hp
    exact (synthPoints_mem _ _ _ _ _ _ _ _ _ _ _ _ _ p hp).1

/-- Witness for C10 amended at the concrete `ds`/`y` frame. -/
theorem c10_witness :
    exRespA.forecasts.filter (fun p => p.is_historical) =
      (exDsY.rows.drop (exDsY.rows.length - min 50 exDsY.rows.length)).map (fun row =>
        ⟨rget row "ds", rget row "y", rget row "y", rget row "y", true,
          ([80, 95] : List ℤ).map (fun l => (l, none))⟩) :=
  (c10_historical_tail_amended exDsY 1 5 [80, 95] fnsZero 0 0 exRespA exStA
    (by decide) (by decide) exCallA_eq).1 (by decide)

end Backend
